import Mathlib

/-!
Verification of the jukebox repository: a shallow embedding of the two
variants of the `jukebox::jukebox` Move contract
(`src/jukebox/sources/jukebox.move`), of the browser client's chain-polling
sync loop (`src/frontend/app/components/AudioPlayer.tsx`), and of the blob
cache proxy's mirror-fallback download routine (`downloadFromWalrus` in the
backend server).

Addresses are modelled as natural numbers, coin values as natural numbers
(all amounts in the source are `u64` values that never overflow on the
operations performed: only subtractions guarded by comparisons and a
division by two occur), Move `String` as Lean `String`.  Each entry point
is a pure function; an `assert!` abort is an `Except.error`, and the
host ledger's roll-back-on-abort semantics is captured by the `run…`
wrappers, which return the unchanged state and an empty transfer list on
abort.
-/

/-! ## Move contract model -/

/-- `ONE_SUI` constant of the contract. -/
def ONE_SUI : Nat := 1000000000

/-- A `transfer::public_transfer` of a SUI coin: its value and recipient. -/
structure Transfer where
  amount : Nat
  recipient : Nat
  deriving DecidableEq, Repr

/-- Abort codes of the contract: `E_INSUFFICIENT_PAYMENT = 1`,
`E_TRACK_NOT_FOUND = 2`. -/
inductive JbError where
  | insufficientPayment
  | trackNotFound
  deriving DecidableEq, Repr

/-- The `Jukebox` shared object of variant A (no registry).  The `id : UID`
field is omitted: it is never read or written by the entry points. -/
structure JukeboxA where
  owner : Nat
  fee : Nat
  last_buyer : Nat
  current_track : String
  deriving DecidableEq, Repr

/-- `init` of variant A: fee `ONE_SUI`, owner and last buyer the sender,
current track `"Silence"`. -/
def initA (sender : Nat) : JukeboxA :=
  { owner := sender, fee := ONE_SUI, last_buyer := sender,
    current_track := "Silence" }

/-- `change_track` of variant A.  `paid` is the value of the `payment`
coin, `sender` is `ctx.sender()`.  Returns the updated object and the
list of transfers made, in program order: the change split sent back to
the sender when `paid > fee`, then the remaining payment coin sent to the
owner. -/
def change_trackA (jb : JukeboxA) (paid : Nat) (new_track : String)
    (sender : Nat) : Except JbError (JukeboxA × List Transfer) :=
  if paid ≥ jb.fee then
    let change : List Transfer :=
      if paid > jb.fee then [⟨paid - jb.fee, sender⟩] else []
    let remaining : Nat := if paid > jb.fee then paid - (paid - jb.fee) else paid
    Except.ok ({ jb with last_buyer := sender, current_track := new_track },
      change ++ [⟨remaining, jb.owner⟩])
  else
    Except.error JbError.insufficientPayment

/-- An abort of a Move transaction rolls the whole transaction back, so a
failing `change_track` leaves the shared object as it was and makes no
transfer.  The wrapper makes that explicit: result state, transfers,
and the abort code if any. -/
def runChangeTrackA (jb : JukeboxA) (paid : Nat) (new_track : String)
    (sender : Nat) : JukeboxA × List Transfer × Option JbError :=
  match change_trackA jb paid new_track sender with
  | Except.ok (jb', ts) => (jb', ts, none)
  | Except.error e => (jb, [], some e)

/-- A `Track` of variant B.  The `id : UID` field is omitted: it is never
read by the entry points ("Probably not used for now" in the source). -/
structure Track where
  artist : Nat
  title : String
  deriving DecidableEq, Repr

/-- The `Jukebox` shared object of variant B (with the track registry). -/
structure JukeboxB where
  owner : Nat
  fee : Nat
  last_buyer : Nat
  current_track : String
  collection : List Track
  deriving DecidableEq, Repr

/-- `initCollection` of variant B: the empty vector. -/
def initCollection : List Track := []

/-- `init` of variant B. -/
def initB (sender : Nat) : JukeboxB :=
  { owner := sender, fee := ONE_SUI, last_buyer := sender,
    current_track := "Silence", collection := initCollection }

/-- `addTrack`: pushes a new `Track` with the sender as artist onto the
end of the collection. -/
def addTrack (jb : JukeboxB) (title : String) (sender : Nat) : JukeboxB :=
  { jb with collection := jb.collection ++ [⟨sender, title⟩] }

/-- The while-loop of variant B's `change_track`: scan the collection in
index order and stop at the first track whose title equals `new_track`. -/
def findTrack (collection : List Track) (new_track : String) : Option Track :=
  collection.find? (fun tr => tr.title == new_track)

/-- `change_track` of variant B.  Order of operations follows the source:
payment check, registry scan, track-found check, change split back to the
sender when `paid > fee`, artist share `fee / 2` to the found track's
artist, remaining payment coin to the owner, then the state writes. -/
def change_trackB (jb : JukeboxB) (paid : Nat) (new_track : String)
    (sender : Nat) : Except JbError (JukeboxB × List Transfer) :=
  if paid ≥ jb.fee then
    match findTrack jb.collection new_track with
    | none => Except.error JbError.trackNotFound
    | some tr =>
      let change : List Transfer :=
        if paid > jb.fee then [⟨paid - jb.fee, sender⟩] else []
      let afterChange : Nat :=
        if paid > jb.fee then paid - (paid - jb.fee) else paid
      let artist_share : Nat := jb.fee / 2
      Except.ok ({ jb with last_buyer := sender, current_track := new_track },
        change ++ [⟨artist_share, tr.artist⟩,
                   ⟨afterChange - artist_share, jb.owner⟩])
  else
    Except.error JbError.insufficientPayment

/-- Roll-back wrapper for variant B, as for variant A. -/
def runChangeTrackB (jb : JukeboxB) (paid : Nat) (new_track : String)
    (sender : Nat) : JukeboxB × List Transfer × Option JbError :=
  match change_trackB jb paid new_track sender with
  | Except.ok (jb', ts) => (jb', ts, none)
  | Except.error e => (jb, [], some e)

/-! ## Theorems: payment gate (C1) -/

/-- C1: for every payment strictly below the fee, `change_track` of either
variant aborts with `InsufficientPayment` and the whole state — owner, fee,
last buyer, current track, and in variant B the collection — is unchanged,
with no transfer made: the failure produces no partial write. -/
theorem changeTrack_insufficient_payment_rolls_back
    (jbA : JukeboxA) (jbB : JukeboxB) (p q : Nat) (t u : String) (s : Nat)
    (hA : p < jbA.fee) (hB : q < jbB.fee) :
    runChangeTrackA jbA p t s = (jbA, [], some JbError.insufficientPayment) ∧
    runChangeTrackB jbB q u s = (jbB, [], some JbError.insufficientPayment) := by
  constructor
  · unfold runChangeTrackA change_trackA
    rw [if_neg (by omega)]
  · unfold runChangeTrackB change_trackB
    rw [if_neg (by omega)]

/-- Concrete instance of C1: payment `3` against the freshly initialised
jukebox (fee `ONE_SUI`) of each variant. -/
theorem changeTrack_insufficient_payment_rolls_back_witness :
    runChangeTrackA (initA 7) 3 "Song A" 9
      = (initA 7, [], some JbError.insufficientPayment) ∧
    runChangeTrackB (initB 7) 3 "Song A" 9
      = (initB 7, [], some JbError.insufficientPayment) :=
  changeTrack_insufficient_payment_rolls_back (initA 7) (initB 7) 3 3
    "Song A" "Song A" 9 (by decide) (by decide)

/-! ## Theorems: successful change_track (C2, C5) and missing track (C3) -/

/-- C2: with payment `p ≥ fee` and the title present in the registry,
variant B's `change_track` succeeds: the current track becomes the
requested title, the last buyer becomes the caller, the first matching
entry's artist is credited exactly `fee / 2`, the owner exactly
`fee - fee / 2`, and the caller is refunded exactly `p - fee` (no refund
transfer at all when `p = fee`). -/
theorem change_trackB_success_split
    (jb : JukeboxB) (p : Nat) (t : String) (s : Nat) (tr : Track)
    (hp : p ≥ jb.fee) (hfind : findTrack jb.collection t = some tr) :
    runChangeTrackB jb p t s =
      ({ jb with last_buyer := s, current_track := t },
       (if p > jb.fee then [⟨p - jb.fee, s⟩] else []) ++
         [⟨jb.fee / 2, tr.artist⟩, ⟨jb.fee - jb.fee / 2, jb.owner⟩],
       none) := by
  unfold runChangeTrackB change_trackB
  rw [if_pos hp, hfind]
  have hafter : (if p > jb.fee then p - (p - jb.fee) else p) = jb.fee := by
    split <;> omega
  rw [hafter]

/-- Concrete instance of C2: two tracks registered, overpayment of
`ONE_SUI + 5`; the refund is `5`, the artist gets `ONE_SUI / 2`, the
owner `ONE_SUI - ONE_SUI / 2`. -/
theorem change_trackB_success_split_witness :
    runChangeTrackB (addTrack (addTrack (initB 7) "Song A" 21) "Song B" 22)
        (ONE_SUI + 5) "Song B" 9 =
      ({ addTrack (addTrack (initB 7) "Song A" 21) "Song B" 22 with
          last_buyer := 9, current_track := "Song B" },
       [⟨5, 9⟩, ⟨ONE_SUI / 2, 22⟩, ⟨ONE_SUI - ONE_SUI / 2, 7⟩],
       none) := by
  have h := change_trackB_success_split
    (addTrack (addTrack (initB 7) "Song A" 21) "Song B" 22)
    (ONE_SUI + 5) "Song B" 9 ⟨22, "Song B"⟩ (by decide) (by decide)
  simpa using h

/-- C3: when no entry of the registry has the requested title, variant B's
`change_track` with payment exactly `fee` aborts with `TrackNotFound`,
the full state is unchanged and no transfer is made to any party. -/
theorem change_trackB_track_not_found_rolls_back
    (jb : JukeboxB) (t : String) (s : Nat)
    (habs : ∀ tr ∈ jb.collection, tr.title ≠ t) :
    runChangeTrackB jb jb.fee t s = (jb, [], some JbError.trackNotFound) := by
  have hfind : findTrack jb.collection t = none := by
    unfold findTrack
    rw [List.find?_eq_none]
    intro tr htr
    simpa using habs tr htr
  unfold runChangeTrackB change_trackB
  rw [if_pos (le_refl _), hfind]

/-- Concrete instance of C3: one track `"Song A"` registered, request for
`"Song B"`. -/
theorem change_trackB_track_not_found_rolls_back_witness :
    runChangeTrackB (addTrack (initB 7) "Song A" 21) (ONE_SUI) "Song B" 9
      = (addTrack (initB 7) "Song A" 21, [], some JbError.trackNotFound) := by
  have h := change_trackB_track_not_found_rolls_back
    (addTrack (initB 7) "Song A" 21) "Song B" 9 (by decide)
  simpa using h

/-- C5: in variant A, any payment `p ≥ fee` succeeds unconditionally: the
current track becomes the requested title, the last buyer the caller, the
owner is credited exactly the full `fee`, the caller refunded exactly
`p - fee` (no refund transfer when `p = fee`), and no other transfer —
in particular no artist payment — is made. -/
theorem change_trackA_success_full_fee_to_owner
    (jb : JukeboxA) (p : Nat) (t : String) (s : Nat) (hp : p ≥ jb.fee) :
    runChangeTrackA jb p t s =
      ({ jb with last_buyer := s, current_track := t },
       (if p > jb.fee then [⟨p - jb.fee, s⟩] else []) ++ [⟨jb.fee, jb.owner⟩],
       none) := by
  unfold runChangeTrackA change_trackA
  rw [if_pos hp]
  have hrem : (if p > jb.fee then p - (p - jb.fee) else p) = jb.fee := by
    split <;> omega
  rw [hrem]

/-- Concrete instance of C5: exact payment `ONE_SUI`, no refund, the full
fee to the owner. -/
theorem change_trackA_success_full_fee_to_owner_witness :
    runChangeTrackA (initA 7) ONE_SUI "Song A" 9 =
      ({ initA 7 with last_buyer := 9, current_track := "Song A" },
       [⟨ONE_SUI, 7⟩], none) := by
  have h := change_trackA_success_full_fee_to_owner (initA 7) ONE_SUI
    "Song A" 9 (by decide)
  simpa using h

/-! ## Theorems: duplicate titles resolve to the first registration (C4) -/

/-- Scanning a collection whose first part has no matching title finds the
first match of the second part. -/
theorem findTrack_append_of_no_match (l l' : List Track) (t : String)
    (h : ∀ tr ∈ l, tr.title ≠ t) :
    findTrack (l ++ l') t = findTrack l' t := by
  induction l with
  | nil => rfl
  | cons hd tl ih =>
    unfold findTrack at *
    have hhd : (hd.title == t) = false := by
      simpa using h hd (List.mem_cons_self hd tl)
    simp only [List.cons_append, List.find?_cons, hhd]
    exact ih fun tr htr => h tr (List.mem_cons_of_mem hd htr)

/-- C4: starting from a registry with no entry titled `t`, registering `t`
first by artist `a1` and then by a different artist `a2` appends two
distinct entries, and a subsequent sufficiently paid `change_track` for
`t` succeeds and credits `fee / 2` to `a1`, the first-registered artist. -/
theorem addTrack_duplicate_title_credits_first_artist
    (jb : JukeboxB) (t : String) (a1 a2 p s : Nat)
    (habs : ∀ tr ∈ jb.collection, tr.title ≠ t)
    (hne : a1 ≠ a2) (hp : p ≥ jb.fee) :
    (addTrack (addTrack jb t a1) t a2).collection
        = jb.collection ++ [⟨a1, t⟩, ⟨a2, t⟩] ∧
    (⟨a1, t⟩ : Track) ≠ ⟨a2, t⟩ ∧
    runChangeTrackB (addTrack (addTrack jb t a1) t a2) p t s =
      ({ addTrack (addTrack jb t a1) t a2 with
          last_buyer := s, current_track := t },
       (if p > jb.fee then [⟨p - jb.fee, s⟩] else []) ++
         [⟨jb.fee / 2, a1⟩, ⟨jb.fee - jb.fee / 2, jb.owner⟩],
       none) := by
  refine ⟨by simp [addTrack], by simp [hne], ?_⟩
  have hfind : findTrack (addTrack (addTrack jb t a1) t a2).collection t
      = some ⟨a1, t⟩ := by
    have hcoll : (addTrack (addTrack jb t a1) t a2).collection
        = jb.collection ++ [⟨a1, t⟩, ⟨a2, t⟩] := by simp [addTrack]
    rw [hcoll, findTrack_append_of_no_match jb.collection _ t habs]
    unfold findTrack
    simp [List.find?_cons]
  unfold runChangeTrackB change_trackB
  rw [if_pos (show p ≥ (addTrack (addTrack jb t a1) t a2).fee from hp), hfind]
  have hafter : (if p > (addTrack (addTrack jb t a1) t a2).fee then
      p - (p - (addTrack (addTrack jb t a1) t a2).fee) else p) = jb.fee := by
    show (if p > jb.fee then p - (p - jb.fee) else p) = jb.fee
    split <;> omega
  rw [hafter]
  rfl

/-- Concrete instance of C4: `"Song A"` registered by artist `21` then by
artist `22`; a `change_track` to `"Song A"` with exact payment credits
artist `21`. -/
theorem addTrack_duplicate_title_credits_first_artist_witness :
    (addTrack (addTrack (initB 7) "Song A" 21) "Song A" 22).collection
        = (initB 7).collection ++ [⟨21, "Song A"⟩, ⟨22, "Song A"⟩] ∧
    (⟨21, "Song A"⟩ : Track) ≠ ⟨22, "Song A"⟩ ∧
    runChangeTrackB (addTrack (addTrack (initB 7) "Song A" 21) "Song A" 22)
        ONE_SUI "Song A" 9 =
      ({ addTrack (addTrack (initB 7) "Song A" 21) "Song A" 22 with
          last_buyer := 9, current_track := "Song A" },
       [⟨ONE_SUI / 2, 21⟩, ⟨ONE_SUI - ONE_SUI / 2, 7⟩],
       none) := by
  have h := addTrack_duplicate_title_credits_first_artist (initB 7) "Song A"
    21 22 ONE_SUI 9 (by decide) (by decide) (by decide)
  simpa using h

/-! ## Theorems: the fee is never written after creation (C6) -/

/-- The entry points callable on a variant A jukebox. -/
inductive OpA where
  | changeTrack (paid : Nat) (title : String) (sender : Nat)

/-- The entry points callable on a variant B jukebox. -/
inductive OpB where
  | addTrack (title : String) (sender : Nat)
  | changeTrack (paid : Nat) (title : String) (sender : Nat)

/-- Applying a variant A entry point, keeping the state on abort. -/
def stepA (jb : JukeboxA) : OpA → JukeboxA
  | OpA.changeTrack p t s => (runChangeTrackA jb p t s).1

/-- Applying a variant B entry point, keeping the state on abort. -/
def stepB (jb : JukeboxB) : OpB → JukeboxB
  | OpB.addTrack t s => addTrack jb t s
  | OpB.changeTrack p t s => (runChangeTrackB jb p t s).1

/-- A variant A `change_track`, successful or aborted, leaves the fee. -/
theorem runChangeTrackA_fst_fee (jb : JukeboxA) (p : Nat) (t : String)
    (s : Nat) : (runChangeTrackA jb p t s).1.fee = jb.fee := by
  unfold runChangeTrackA change_trackA
  by_cases h : p ≥ jb.fee
  · rw [if_pos h]
  · rw [if_neg h]

/-- A variant B `change_track`, successful or aborted, leaves the fee. -/
theorem runChangeTrackB_fst_fee (jb : JukeboxB) (p : Nat) (t : String)
    (s : Nat) : (runChangeTrackB jb p t s).1.fee = jb.fee := by
  unfold runChangeTrackB change_trackB
  by_cases h : p ≥ jb.fee
  · rw [if_pos h]
    rcases hf : findTrack jb.collection t with _ | tr <;> rfl
  · rw [if_neg h]

/-- No single variant A entry point writes the fee. -/
theorem stepA_fee (jb : JukeboxA) (op : OpA) : (stepA jb op).fee = jb.fee := by
  cases op with
  | changeTrack p t s => exact runChangeTrackA_fst_fee jb p t s

/-- No single variant B entry point writes the fee. -/
theorem stepB_fee (jb : JukeboxB) (op : OpB) : (stepB jb op).fee = jb.fee := by
  cases op with
  | addTrack t s => rfl
  | changeTrack p t s => exact runChangeTrackB_fst_fee jb p t s

/-- C6: the fee is set to `ONE_SUI` at creation and no sequence of entry
point calls, in either variant, ever changes it. -/
theorem fee_set_once_and_never_written (s : Nat)
    (opsA : List OpA) (opsB : List OpB) :
    (initA s).fee = ONE_SUI ∧ (initB s).fee = ONE_SUI ∧
    (opsA.foldl stepA (initA s)).fee = ONE_SUI ∧
    (opsB.foldl stepB (initB s)).fee = ONE_SUI := by
  have hA : ∀ (ops : List OpA) (jb : JukeboxA),
      (ops.foldl stepA jb).fee = jb.fee := by
    intro ops
    induction ops with
    | nil => intro jb; rfl
    | cons op tl ih => intro jb; rw [List.foldl_cons, ih, stepA_fee]
  have hB : ∀ (ops : List OpB) (jb : JukeboxB),
      (ops.foldl stepB jb).fee = jb.fee := by
    intro ops
    induction ops with
    | nil => intro jb; rfl
    | cons op tl ih => intro jb; rw [List.foldl_cons, ih, stepB_fee]
  refine ⟨rfl, rfl, ?_, ?_⟩
  · rw [hA]; rfl
  · rw [hB]; rfl

/-! ## Client sync loop model (AudioPlayer.tsx) -/

/-- A playlist entry of the audio player: its file key and title. -/
structure Song where
  file : String
  title : String
  deriving DecidableEq, Repr

/-- The track object returned by `fetchCurrentTrackFromChain`: both fields
may be absent. -/
structure ChainTrack where
  file : Option String
  title : Option String
  deriving DecidableEq, Repr

/-- JavaScript `a || b` on two optional strings: `a` when it is a present,
non-empty (truthy) string, otherwise `b`. -/
def jsOr (a b : Option String) : Option String :=
  match a with
  | some s => if s = "" then b else some s
  | none => b

/-- `const key = now.file || now.title` followed by the `if (!key) return`
guard: the resulting key, or `none` when the guard returns early. -/
def keyOf (c : ChainTrack) : Option String :=
  match jsOr c.file c.title with
  | none => none
  | some s => if s = "" then none else some s

/-- JavaScript `String.prototype.toLowerCase` (character-wise case
folding), modelled structurally so it evaluates on concrete strings. -/
def jsToLower (s : String) : String := ⟨s.data.map Char.toLower⟩

/-- JavaScript `Array.prototype.findIndex`, index accumulator form;
`none` models the `-1` of a failed search. -/
def findIndexAux (p : Song → Bool) : List Song → Nat → Option Nat
  | [], _ => none
  | s :: rest, i => if p s then some i else findIndexAux p rest (i + 1)

/-- `playlistRef.current.findIndex(p)`. -/
def findIndex (p : Song → Bool) (pl : List Song) : Option Nat :=
  findIndexAux p pl 0

/-- The tick's resolution of a key against the playlist: match by `file`
first, then fall back to a case-insensitive match by `title`. -/
def resolveIdx (pl : List Song) (key : String) : Option Nat :=
  match findIndex (fun s => s.file == key) pl with
  | some i => some i
  | none => findIndex (fun s => jsToLower s.title == jsToLower key) pl

/-- Result of one `tick`: the new `lastChainTrackRef.current` and the
index passed to `skipTo`, if any playback switch happened. -/
structure TickResult where
  lastChainTrack : Option String
  skip : Option Nat
  deriving DecidableEq, Repr

/-- One `tick` of the chain-polling effect: `fetched` is the result of
`fetchCurrentTrackFromChain` (`none` for a failed fetch).  When the key is
present and differs from the last seen one, the ref is updated first and
the key is then resolved against the playlist; equal or missing keys leave
everything alone. -/
def tick (last : Option String) (pl : List Song) (fetched : Option ChainTrack) :
    TickResult :=
  match fetched with
  | none => ⟨last, none⟩
  | some c =>
    match keyOf c with
    | none => ⟨last, none⟩
    | some key =>
      if some key = last then ⟨last, none⟩
      else ⟨some key, resolveIdx pl key⟩

/-- Run a sequence of polls: returns the final ref value and the per-tick
`skipTo` calls (in order, `none` for a tick that switched nothing). -/
def runTicks (last : Option String) (pl : List Song)
    (seq : List (Option ChainTrack)) : Option String × List (Option Nat) :=
  match seq with
  | [] => (last, [])
  | f :: fs =>
    let r := tick last pl f
    let rest := runTicks r.lastChainTrack pl fs
    (rest.1, r.skip :: rest.2)

/-- `playByTitle`: case-insensitive search by title; the index passed to
`skipTo`, or `none` when the title is unknown (the warning branch). -/
def playByTitle (pl : List Song) (title : String) : Option Nat :=
  findIndex (fun s => jsToLower s.title == jsToLower title) pl

/-- A chain key resolves locally when some playlist entry matches it by
file or by case-insensitive title. -/
def resolvesLocally (pl : List Song) (key : String) : Prop :=
  (∃ s ∈ pl, s.file = key) ∨ (∃ s ∈ pl, jsToLower s.title = jsToLower key)

instance (pl : List Song) (key : String) : Decidable (resolvesLocally pl key) :=
  inferInstanceAs (Decidable ((∃ s ∈ pl, s.file = key) ∨
    (∃ s ∈ pl, jsToLower s.title = jsToLower key)))

/-- A failing search: `findIndexAux` is `none` exactly when no element
satisfies the predicate. -/
theorem findIndexAux_eq_none_iff (p : Song → Bool) (l : List Song) (i : Nat) :
    findIndexAux p l i = none ↔ ∀ s ∈ l, p s = false := by
  induction l generalizing i with
  | nil => simp [findIndexAux]
  | cons hd tl ih =>
    unfold findIndexAux
    by_cases hp : p hd
    · simp [hp]
    · simp only [Bool.not_eq_true] at hp
      simp [hp, ih]

/-- A successful search yields a satisfying element. -/
theorem findIndexAux_some_exists (p : Song → Bool) (l : List Song) (i j : Nat)
    (h : findIndexAux p l i = some j) : ∃ s ∈ l, p s = true := by
  induction l generalizing i with
  | nil => exact absurd h (by simp [findIndexAux])
  | cons hd tl ih =>
    unfold findIndexAux at h
    by_cases hp : p hd
    · exact ⟨hd, List.mem_cons_self hd tl, hp⟩
    · rw [if_neg hp] at h
      obtain ⟨s, hs, hps⟩ := ih (i + 1) h
      exact ⟨s, List.mem_cons_of_mem hd hs, hps⟩

/-- `resolveIdx` fails exactly when the key resolves to nothing locally. -/
theorem resolveIdx_eq_none_iff (pl : List Song) (key : String) :
    resolveIdx pl key = none ↔ ¬ resolvesLocally pl key := by
  unfold resolveIdx findIndex resolvesLocally
  rcases hfile : findIndexAux (fun s => s.file == key) pl 0 with _ | i
  · rcases htitle : findIndexAux (fun s => jsToLower s.title == jsToLower key) pl 0
      with _ | j
    · rw [findIndexAux_eq_none_iff] at hfile htitle
      constructor
      · intro _
        rintro (⟨s, hs, hkey⟩ | ⟨s, hs, hkey⟩)
        · have := hfile s hs
          simp [hkey] at this
        · have := htitle s hs
          simp [hkey] at this
      · intro _
        rfl
    · constructor
      · intro h
        exact Option.noConfusion h
      · intro h
        exfalso
        apply h
        obtain ⟨s, hs, hps⟩ := findIndexAux_some_exists _ pl 0 j htitle
        exact Or.inr ⟨s, hs, by simpa using hps⟩
  · constructor
    · intro h
      exact Option.noConfusion h
    · intro h
      exfalso
      apply h
      obtain ⟨s, hs, hps⟩ := findIndexAux_some_exists _ pl 0 i hfile
      exact Or.inl ⟨s, hs, by simpa using hps⟩

/-- A poll observing a bare title `x` (no file key): the tick keeps the
state when `x` was the last seen key and otherwise records `x` and
resolves it. -/
theorem tick_step (last : Option String) (pl : List Song) (x : String)
    (hx : x ≠ "") : tick last pl (some ⟨none, some x⟩) =
      if some x = last then ⟨last, none⟩ else ⟨some x, resolveIdx pl x⟩ := by
  unfold tick
  simp [keyOf, jsOr, hx]

/-! ## Theorems: coalesced polling switches (C7) -/

/-- C7 as written fails on the code: with the sentinel start and all of
`A`, `B`, `C` locally resolvable, the observed sequence
`[A, A, B, B, C]` switches playback three times, not two — the very
first poll already switches playback to `A`, because the sentinel differs
from `A`. -/
theorem tick_sequence_AABBC_switch_count :
    (((runTicks none [⟨"fa", "A"⟩, ⟨"fb", "B"⟩, ⟨"fc", "C"⟩]
        [some ⟨none, some "A"⟩, some ⟨none, some "A"⟩,
         some ⟨none, some "B"⟩, some ⟨none, some "B"⟩,
         some ⟨none, some "C"⟩]).2.filterMap id).length = 3) ∧
    ¬ (((runTicks none [⟨"fa", "A"⟩, ⟨"fb", "B"⟩, ⟨"fc", "C"⟩]
        [some ⟨none, some "A"⟩, some ⟨none, some "A"⟩,
         some ⟨none, some "B"⟩, some ⟨none, some "B"⟩,
         some ⟨none, some "C"⟩]).2.filterMap id).length = 2) := by
  decide

/-- C7 (amended): starting from the unseen sentinel, five polls observing
`[A, A, B, B, C]` with `A`, `B`, `C` non-empty, locally resolvable,
and `A ≠ B`, `B ≠ C`, switch playback exactly three times — at the first
observation of `A` and at the `A→B` and `B→C` transitions — and a poll
observing a value equal to the last observed one never re-triggers
playback; values skipped between polls are never reacted to, the loop
only ever compares the latest fetched value. -/
theorem tick_sequence_AABBC_switches_three_times
    (pl : List Song) (a b c : String)
    (ha : a ≠ "") (hb : b ≠ "") (hc : c ≠ "")
    (hab : a ≠ b) (hbc : b ≠ c)
    (hra : (resolveIdx pl a).isSome = true)
    (hrb : (resolveIdx pl b).isSome = true)
    (hrc : (resolveIdx pl c).isSome = true) :
    (runTicks none pl [some ⟨none, some a⟩, some ⟨none, some a⟩,
        some ⟨none, some b⟩, some ⟨none, some b⟩, some ⟨none, some c⟩]).2
      = [resolveIdx pl a, none, resolveIdx pl b, none, resolveIdx pl c] ∧
    ((runTicks none pl [some ⟨none, some a⟩, some ⟨none, some a⟩,
        some ⟨none, some b⟩, some ⟨none, some b⟩,
        some ⟨none, some c⟩]).2.filterMap id).length = 3 := by
  obtain ⟨ia, hia⟩ := Option.isSome_iff_exists.mp hra
  obtain ⟨ib, hib⟩ := Option.isSome_iff_exists.mp hrb
  obtain ⟨ic, hic⟩ := Option.isSome_iff_exists.mp hrc
  have hstep : (runTicks none pl [some ⟨none, some a⟩, some ⟨none, some a⟩,
      some ⟨none, some b⟩, some ⟨none, some b⟩, some ⟨none, some c⟩]).2
      = [resolveIdx pl a, none, resolveIdx pl b, none, resolveIdx pl c] := by
    simp [runTicks, tick_step, ha, hb, hc, Ne.symm hab, Ne.symm hbc]
  refine ⟨hstep, ?_⟩
  rw [hstep, hia, hib, hic]
  rfl

/-- Concrete instance of the amended C7: the three-song playlist, titles
`A`, `B`, `C` observed as `[A, A, B, B, C]`. -/
theorem tick_sequence_AABBC_switches_three_times_witness :
    (runTicks none [⟨"fa", "A"⟩, ⟨"fb", "B"⟩, ⟨"fc", "C"⟩]
        [some ⟨none, some "A"⟩, some ⟨none, some "A"⟩,
         some ⟨none, some "B"⟩, some ⟨none, some "B"⟩,
         some ⟨none, some "C"⟩]).2
      = [resolveIdx [⟨"fa", "A"⟩, ⟨"fb", "B"⟩, ⟨"fc", "C"⟩] "A", none,
         resolveIdx [⟨"fa", "A"⟩, ⟨"fb", "B"⟩, ⟨"fc", "C"⟩] "B", none,
         resolveIdx [⟨"fa", "A"⟩, ⟨"fb", "B"⟩, ⟨"fc", "C"⟩] "C"] ∧
    ((runTicks none [⟨"fa", "A"⟩, ⟨"fb", "B"⟩, ⟨"fc", "C"⟩]
        [some ⟨none, some "A"⟩, some ⟨none, some "A"⟩,
         some ⟨none, some "B"⟩, some ⟨none, some "B"⟩,
         some ⟨none, some "C"⟩]).2.filterMap id).length = 3 :=
  tick_sequence_AABBC_switches_three_times
    [⟨"fa", "A"⟩, ⟨"fb", "B"⟩, ⟨"fc", "C"⟩] "A" "B" "C"
    (by decide) (by decide) (by decide) (by decide) (by decide)
    (by decide) (by decide) (by decide)

/-! ## Theorems: unresolvable chain tracks are safe no-ops (C8, C10) -/

/-- C8: a poll whose fetched track resolves to no playlist entry —
neither by file key nor by case-insensitive title — performs no playback
change, and `playByTitle` with an unknown title finds no index and so
never calls `skipTo`; both are total functions of the embedded model, so
neither throws. -/
theorem tick_unresolvable_is_noop
    (last : Option String) (pl : List Song) (c : ChainTrack) (key : String)
    (hkey : keyOf c = some key) (hres : ¬ resolvesLocally pl key)
    (t : String) (ht : ∀ s ∈ pl, jsToLower s.title ≠ jsToLower t) :
    (tick last pl (some c)).skip = none ∧ playByTitle pl t = none := by
  constructor
  · have hnone : resolveIdx pl key = none :=
      (resolveIdx_eq_none_iff pl key).mpr hres
    simp only [tick, hkey]
    by_cases hlast : some key = last
    · simp [hlast]
    · simp [hlast, hnone]
  · unfold playByTitle findIndex
    rw [findIndexAux_eq_none_iff]
    intro s hs
    simpa using ht s hs

/-- Concrete instance of C8: a one-song playlist, chain track and title
`Z` unknown to it. -/
theorem tick_unresolvable_is_noop_witness :
    (tick none [⟨"fa", "A"⟩] (some ⟨none, some "Z"⟩)).skip = none ∧
    playByTitle [⟨"fa", "A"⟩] "Z" = none :=
  tick_unresolvable_is_noop none [⟨"fa", "A"⟩] ⟨none, some "Z"⟩ "Z"
    (by decide) (by decide) "Z" (by decide)

/-- C10: a tick observing a new, locally unresolvable key still records it
in `lastChainTrackRef`; as long as later fetches return the same key, the
tick switches nothing — even against a playlist that has since gained a
matching entry — because the equality check fires before any resolution. -/
theorem tick_unresolvable_key_recorded_and_sticky
    (last : Option String) (pl : List Song) (c : ChainTrack) (key : String)
    (hkey : keyOf c = some key) (hnew : some key ≠ last)
    (hres : ¬ resolvesLocally pl key) :
    tick last pl (some c) = ⟨some key, none⟩ ∧
    ∀ (pl' : List Song) (c' : ChainTrack), keyOf c' = some key →
      tick (some key) pl' (some c') = ⟨some key, none⟩ := by
  constructor
  · have hnone : resolveIdx pl key = none :=
      (resolveIdx_eq_none_iff pl key).mpr hres
    simp only [tick, hkey]
    rw [if_neg hnew]
    simp [hnone]
  · intro pl' c' hk'
    simp [tick, hk']

/-- Concrete instance of C10: key `Z` is recorded although unresolvable,
and a later tick against a playlist that now contains `Z` still switches
nothing while the chain keeps returning `Z`. -/
theorem tick_unresolvable_key_recorded_and_sticky_witness :
    tick none [⟨"fa", "A"⟩] (some ⟨none, some "Z"⟩) = ⟨some "Z", none⟩ ∧
    tick (some "Z") [⟨"fa", "A"⟩, ⟨"fz", "Z"⟩] (some ⟨none, some "Z"⟩)
      = ⟨some "Z", none⟩ := by
  have h := tick_unresolvable_key_recorded_and_sticky none [⟨"fa", "A"⟩]
    ⟨none, some "Z"⟩ "Z" (by decide) (by decide) (by decide)
  exact ⟨h.1, h.2 [⟨"fa", "A"⟩, ⟨"fz", "Z"⟩] ⟨none, some "Z"⟩ (by decide)⟩

/-! ## Blob cache proxy: mirror fallback download (C9) -/

/-- What one mirror attempt in `downloadFromWalrus` can produce: a
success body, a non-success HTTP status (the `!response.ok` branch), or a
thrown network error (the `catch` branch). -/
inductive MirrorResult where
  | ok (body : List Nat)
  | badStatus (status : Nat)
  | netError (msg : String)
  deriving DecidableEq, Repr

/-- What the routine as a whole produces: the first successful body, the
`throw new Error("All Walrus aggregators failed. Last error: …")` of the
catch branch on the last mirror, or `undefined` when the loop finishes
without returning or throwing. -/
inductive DownloadOutcome where
  | success (body : List Nat)
  | allFailed (lastError : String)
  | noResult
  deriving DecidableEq, Repr

/-- `downloadFromWalrus`, indexed by the behaviour of each configured
mirror in list order: return the first `ok` body, `continue` past a
non-success status, and from the `catch` branch re-throw only when the
failing mirror is the last one. -/
def downloadFromWalrus : List MirrorResult → DownloadOutcome
  | [] => DownloadOutcome.noResult
  | r :: rs =>
    match r with
    | MirrorResult.ok body => DownloadOutcome.success body
    | MirrorResult.badStatus _ => downloadFromWalrus rs
    | MirrorResult.netError msg =>
      if rs.isEmpty then DownloadOutcome.allFailed msg
      else downloadFromWalrus rs

/-- C9: the fallback loop never reports failure while an untried mirror
remains and returns the first success, but when the last mirror fails
with a non-success HTTP status the loop falls through without the
promised all-mirrors-failed error: with two mirrors answering 404 and
500, the routine returns `undefined` rather than an error carrying the
last failure — the catch-branch throw is unreachable from the
status-failure path. -/
theorem downloadFromWalrus_all_bad_status_returns_undefined :
    downloadFromWalrus
        [MirrorResult.badStatus 404, MirrorResult.badStatus 500]
      = DownloadOutcome.noResult ∧
    downloadFromWalrus
        [MirrorResult.badStatus 404, MirrorResult.ok [1, 2, 3]]
      = DownloadOutcome.success [1, 2, 3] ∧
    downloadFromWalrus
        [MirrorResult.badStatus 404, MirrorResult.netError "timeout"]
      = DownloadOutcome.allFailed "timeout" := by
  decide
